import Mathlib

/-!
Verification development for the effect-react core: a shallow embedding of
the repository's Store (`src/reactive.ts`), the per-hook task machinery
(`src/hooks/useRunEffect.ts`, `src/hooks/useEffectCallback.ts`,
`src/hooks/useService.ts`), the provider scope composition
(`src/providers/EffectProvider.tsx`) and the synchronous fast-path hooks
(`useEffectState`, `useEffectMemo`), together with theorems settling the
frozen claims about the specification.

Conventions of the embedding:
- JavaScript object identity is modelled by natural-number reference ids;
  `Object.is` on such values is decidable equality.
- The effect runtime's terminal events are modelled by `Exit`/`Cause` with
  the two operations the source consumes (`Cause.isInterruptedOnly`,
  `Cause.failureOption`).  `unsafeInterruptAsFork` is a best-effort,
  asynchronous interrupt request: a fiber that was asked to interrupt may
  still settle with its genuine exit (for example from an uninterruptible
  region), exactly as in the Effect runtime; only an interrupted-only exit
  REQUIRES a prior interrupt request.
- Hook lifecycles are small-step machines over explicit event traces; an
  executable validity predicate states which traces the host/runtime pair
  can actually produce.
-/

namespace EffectReact

/-- Tri-state result from `src/types.ts`: Loading | Success(value) | Failure(error). -/
inductive EffectResult (A E : Type) where
  | loading : EffectResult A E
  | success (value : A) : EffectResult A E
  | failure (error : E) : EffectResult A E
deriving DecidableEq, Repr

/-- True exactly on the `Failure` tag of `EffectResult`. -/
def EffectResult.isFailure {A E : Type} : EffectResult A E → Bool
  | .failure _ => true
  | _ => false

/-- Causes of a failed fiber exit, as consumed by the source: typed failures,
defects (die), interruptions, and sequential composition of causes. -/
inductive Cause (E : Type) where
  | fail (e : E) : Cause E
  | die : Cause E
  | interrupt : Cause E
  | seqComp (c1 c2 : Cause E) : Cause E
deriving DecidableEq, Repr

/-- `Cause.isInterruptedOnly`: every leaf of the cause is an interruption. -/
def Cause.isInterruptedOnly {E : Type} : Cause E → Bool
  | .fail _ => false
  | .die => false
  | .interrupt => true
  | .seqComp c1 c2 => c1.isInterruptedOnly && c2.isInterruptedOnly

/-- `Cause.failureOption`: the first typed (expected) failure in the cause, if any. -/
def Cause.failureOption {E : Type} : Cause E → Option E
  | .fail e => some e
  | .die => none
  | .interrupt => none
  | .seqComp c1 c2 =>
      match c1.failureOption with
      | some e => some e
      | none => c2.failureOption

/-- Terminal event of one fiber: `Exit.isSuccess` or a failure cause. -/
inductive Exit (E A : Type) where
  | success (value : A) : Exit E A
  | failure (cause : Cause E) : Exit E A
deriving DecidableEq, Repr

/-- `Exit.isSuccess` from the effect runtime interface. -/
def Exit.isSuccess {E A : Type} : Exit E A → Bool
  | .success _ => true
  | .failure _ => false

end EffectReact

namespace EffectReact.Reactive

/-!
Model of `createComponentStore` (`src/reactive.ts`).

The source keeps `currentValue` plus `listeners = new Set<() => void>()`.
`set(value)` returns immediately when `Object.is(currentValue, value)`;
otherwise it assigns the value and runs `for (const listener of listeners)`
over the LIVE set.  A JavaScript `Set` iterates in insertion order and keeps
tombstones: deleting marks an entry absent, adding an id that is not
currently present appends a new entry at the end, and entries appended
while an iteration is in progress ARE visited by that iteration.

The model: values are reference ids (`Nat`); the listener set is a list of
`(listener id, present)` entries; each listener's callback is a finite list
of `subscribe`/`unsubscribe` actions given by an environment, and invoking a
listener is recorded in an event log.  The iteration walks the entry list by
index with explicit fuel (the source loop can be made non-terminating by a
callback that keeps growing the set, so a fueled walk is the honest
translation; theorems require the fuel to cover the entries reached).
-/

/-- Action a listener callback may perform on the store during notification. -/
inductive LAction where
  | addListener (id : Nat) : LAction
  | removeListener (id : Nat) : LAction
deriving DecidableEq, Repr

/-- Environment giving each listener id the body of its callback. -/
def Env : Type := Nat → List LAction

/-- State of one `createComponentStore` instance: the current value (a
reference id), the JS `Set` of listeners as ordered entries with presence
flags, and the log of listener invocations. -/
structure Store where
  value : Nat
  entries : List (Nat × Bool)
  log : List Nat
deriving DecidableEq, Repr

/-- Membership in the JS `Set`: some entry for this id is present. -/
def hasListener (entries : List (Nat × Bool)) (id : Nat) : Bool :=
  entries.any (fun e => e.1 = id && e.2)

/-- `listeners.add(id)`: a no-op when the id is present, otherwise a new
entry is appended at the end (also after a tombstone). -/
def addEntry (entries : List (Nat × Bool)) (id : Nat) : List (Nat × Bool) :=
  if hasListener entries id then entries else entries ++ [(id, true)]

/-- `listeners.delete(id)`: mark the present entry of this id absent. -/
def removeEntry : List (Nat × Bool) → Nat → List (Nat × Bool)
  | [], _ => []
  | e :: rest, id =>
      if e.1 = id && e.2 then (e.1, false) :: rest
      else e :: removeEntry rest id

/-- Run the actions of one listener callback against the store. -/
def applyActions : List LAction → Store → Store
  | [], s => s
  | .addListener id :: rest, s => applyActions rest { s with entries := addEntry s.entries id }
  | .removeListener id :: rest, s => applyActions rest { s with entries := removeEntry s.entries id }

/-- Invoke listener `id`: record the call, then run its callback actions. -/
def runListener (env : Env) (id : Nat) (s : Store) : Store :=
  applyActions (env id) { s with log := s.log ++ [id] }

/-- The `for (const listener of listeners)` loop: walk the live entry list
by index, invoking each entry that is present when the cursor reaches it.
Entries appended during the walk are reached by the same walk. -/
def notifyAll (env : Env) : Nat → Nat → Store → Store
  | 0, _, s => s
  | fuel + 1, i, s =>
      match s.entries[i]? with
      | none => s
      | some e =>
          notifyAll env fuel (i + 1) (if e.2 then runListener env e.1 s else s)

/-- `set(value)` from `src/reactive.ts`: return immediately when the value
is reference-equal to the current one; otherwise assign it and notify. -/
def storeSet (env : Env) (fuel : Nat) (value : Nat) (s : Store) : Store :=
  if s.value = value then s
  else notifyAll env fuel 0 { s with value := value }

/-- `getSnapshot()`: read the current value, no side effects. -/
def getSnapshot (s : Store) : Nat := s.value

/-- `subscribe(listener)` registers the listener in the set. -/
def subscribeListener (s : Store) (id : Nat) : Store :=
  { s with entries := addEntry s.entries id }

/-- The unsubscribe closure returned by `subscribe` removes the listener. -/
def unsubscribeListener (s : Store) (id : Nat) : Store :=
  { s with entries := removeEntry s.entries id }

/-- Ids of the entries that are present, from cursor position `i` on. -/
def presentIdsFrom (entries : List (Nat × Bool)) (i : Nat) : List Nat :=
  ((entries.drop i).filter (fun e => e.2)).map (fun e => e.1)

/-- Environment for the supersession counterexample: listener 0 subscribes
listener 1 from inside its callback; every other callback does nothing. -/
def envAddDuringPass : Env := fun id => if id = 0 then [LAction.addListener 1] else []

/-- Store with value 0 and the single registered listener 0. -/
def storeC2 : Store := { value := 0, entries := [(0, true)], log := [] }

/-- Trivial environment: no callback mutates the listener set. -/
def envTrivC2 : Env := fun _ => []

/-- Store used by the amended-claim witness: listener 1 is unsubscribed. -/
def storeC2w : Store := { value := 0, entries := [(0, true), (1, false), (2, true)], log := [] }

end EffectReact.Reactive

namespace EffectReact.RunEffect

open EffectReact

/-!
Model of `useRunEffect` (`src/hooks/useRunEffect.ts`).

One hook instance owns one store (initial value `Loading`).  The effect
body (`React.useEffect` setup) sets `Loading`, forks a fiber and attaches
the observer; the cleanup calls `fiber.unsafeInterruptAsFork(fiber.id())`
and nothing else — it does not record anywhere that the fiber is obsolete,
and the observer applies its projection without consulting any active-task
record.  The machine tracks the fibers forked, the interrupt requests
issued, and counts the store `set` calls that change the value after the
instance unmounted.
-/

/-- State of one `useRunEffect` hook instance plus its runtime bookkeeping. -/
structure RState (A E : Type) where
  storeValue : EffectResult A E
  mounted : Bool
  forked : List Nat
  completed : List Nat
  interrupts : List Nat
  currentFiber : Option Nat
  nextFiber : Nat
  postUnmountSets : Nat
deriving DecidableEq, Repr

/-- The slot store's `set`: skip when reference-equal, otherwise replace the
value; a value-changing call that happens after unmount is counted. -/
def rSet {A E : Type} [DecidableEq A] [DecidableEq E]
    (v : EffectResult A E) (s : RState A E) : RState A E :=
  if s.storeValue = v then s
  else { s with
          storeValue := v
          postUnmountSets := if s.mounted then s.postUnmountSets else s.postUnmountSets + 1 }

/-- The observer attached in `useRunEffect`: on success set `Success`; on an
interrupted-only cause return without touching the store; otherwise set
`Failure` only when the cause carries a typed failure. -/
def observer {A E : Type} [DecidableEq A] [DecidableEq E]
    (ex : Exit E A) (s : RState A E) : RState A E :=
  match ex with
  | .success v => rSet (.success v) s
  | .failure c =>
      if c.isInterruptedOnly then s
      else
        match c.failureOption with
        | some e => rSet (.failure e) s
        | none => s

/-- Events of one hook instance: effect setup (fork + Loading), effect
cleanup (interrupt request), unmount (cleanup, then detached), and a fiber
completion delivering its exit to the observer. -/
inductive REv (A E : Type) where
  | effectSetup : REv A E
  | effectCleanup : REv A E
  | unmount : REv A E
  | complete (f : Nat) (ex : Exit E A) : REv A E

/-- Single step of the `useRunEffect` machine, translated from the source. -/
def step {A E : Type} [DecidableEq A] [DecidableEq E]
    (s : RState A E) : REv A E → RState A E
  | .effectSetup =>
      let s1 := rSet .loading s
      { s1 with
          forked := s1.forked ++ [s1.nextFiber]
          currentFiber := some s1.nextFiber
          nextFiber := s1.nextFiber + 1 }
  | .effectCleanup =>
      match s.currentFiber with
      | some f => { s with interrupts := s.interrupts ++ [f] }
      | none => s
  | .unmount =>
      let s1 :=
        match s.currentFiber with
        | some f => { s with interrupts := s.interrupts ++ [f] }
        | none => s
      { s1 with mounted := false }
  | .complete f ex =>
      observer ex { s with completed := s.completed ++ [f] }

/-- Which events the host/runtime pair can actually produce: host events
require a mounted instance; a completion is delivered exactly once per
forked fiber, and an interrupted-only exit requires a prior interrupt
request (a genuine exit is always possible — interruption is best-effort
and a fiber in an uninterruptible region settles genuinely). -/
def validEv {A E : Type} (s : RState A E) : REv A E → Bool
  | .effectSetup => s.mounted
  | .effectCleanup => s.mounted
  | .unmount => s.mounted
  | .complete f ex =>
      s.forked.contains f && !(s.completed.contains f) &&
        (match ex with
         | .failure c => !c.isInterruptedOnly || s.interrupts.contains f
         | .success _ => true)

/-- Run a trace of events. -/
def runTrace {A E : Type} [DecidableEq A] [DecidableEq E]
    (s : RState A E) : List (REv A E) → RState A E
  | [] => s
  | ev :: rest => runTrace (step s ev) rest

/-- Check that every event of the trace is possible where it occurs. -/
def validTrace {A E : Type} [DecidableEq A] [DecidableEq E]
    (s : RState A E) : List (REv A E) → Bool
  | [] => true
  | ev :: rest => validEv s ev && validTrace (step s ev) rest

/-- Freshly mounted hook instance: store starts at `Loading`. -/
def init (A E : Type) : RState A E :=
  { storeValue := .loading
    mounted := true
    forked := []
    completed := []
    interrupts := []
    currentFiber := none
    nextFiber := 0
    postUnmountSets := 0 }

end EffectReact.RunEffect

namespace EffectReact.Service

open EffectReact

/-- The observer attached in `useService` (`src/hooks/useService.ts`): on
success set `Success(service)`; on an interrupted-only cause return without
touching the store; on every other cause set `Failure(exit.cause)` — the
whole cause, so defects such as a missing-service resolution are surfaced. -/
def useServiceObserver {A E : Type} (prior : EffectResult A (Cause E))
    (ex : Exit E A) : EffectResult A (Cause E) :=
  match ex with
  | .success a => .success a
  | .failure c => if c.isInterruptedOnly then prior else .failure c

end EffectReact.Service

namespace EffectReact.Callback

open EffectReact

/-!
Model of `useEffectCallback` (`src/hooks/useEffectCallback.ts`).

The hook keeps a store over `CallbackState = Initial | EffectResult` and a
`fiberRef`.  `run` interrupts the previous fiber (best-effort, as a fork),
sets `Loading`, forks the new fiber, stores it in `fiberRef` and attaches
the observer.  The observer begins with the unconditional assignment
`fiberRef.current = null` — with no comparison between the completing fiber
and the fiber currently recorded — and then applies the projection.
`reset` and the unmount cleanup interrupt the recorded fiber and clear the
ref.  The machine mirrors this statement for statement.
-/

/-- Store contents of `useEffectCallback`: the `Initial` sentinel or a result. -/
inductive CallbackState (A E : Type) where
  | initial : CallbackState A E
  | loading : CallbackState A E
  | success (value : A) : CallbackState A E
  | failure (error : E) : CallbackState A E
deriving DecidableEq, Repr

/-- State of one `useEffectCallback` instance plus runtime bookkeeping. -/
structure CbState (A E : Type) where
  storeValue : CallbackState A E
  fiberRef : Option Nat
  mounted : Bool
  forked : List Nat
  completed : List Nat
  interrupts : List Nat
  nextFiber : Nat
  postUnmountSets : Nat
deriving DecidableEq, Repr

/-- The slot store's `set` for the callback hook, counting value-changing
calls that happen after unmount. -/
def cbSet {A E : Type} [DecidableEq A] [DecidableEq E]
    (v : CallbackState A E) (s : CbState A E) : CbState A E :=
  if s.storeValue = v then s
  else { s with
          storeValue := v
          postUnmountSets := if s.mounted then s.postUnmountSets else s.postUnmountSets + 1 }

/-- Events: a `run` invocation, a `reset`, the unmount cleanup, and a fiber
completion delivering its exit to that fiber's observer. -/
inductive CbEv (A E : Type) where
  | run : CbEv A E
  | reset : CbEv A E
  | unmount : CbEv A E
  | complete (f : Nat) (ex : Exit E A) : CbEv A E

/-- Single step of the `useEffectCallback` machine, translated from the
source.  Note the completion branch: `fiberRef` is cleared before any test,
and no comparison with the completing fiber is made. -/
def cbStep {A E : Type} [DecidableEq A] [DecidableEq E]
    (s : CbState A E) : CbEv A E → CbState A E
  | .run =>
      let s1 :=
        match s.fiberRef with
        | some f => { s with interrupts := s.interrupts ++ [f] }
        | none => s
      let s2 := cbSet .loading s1
      { s2 with
          forked := s2.forked ++ [s2.nextFiber]
          fiberRef := some s2.nextFiber
          nextFiber := s2.nextFiber + 1 }
  | .reset =>
      let s1 :=
        match s.fiberRef with
        | some f => { s with interrupts := s.interrupts ++ [f], fiberRef := none }
        | none => s
      cbSet .initial s1
  | .unmount =>
      let s1 :=
        match s.fiberRef with
        | some f => { s with interrupts := s.interrupts ++ [f], fiberRef := none }
        | none => s
      { s1 with mounted := false }
  | .complete f ex =>
      let s1 := { s with completed := s.completed ++ [f], fiberRef := none }
      match ex with
      | .success a => cbSet (.success a) s1
      | .failure c =>
          if c.isInterruptedOnly then s1
          else
            match c.failureOption with
            | some e => cbSet (.failure e) s1
            | none => s1

/-- Event validity, as for `useRunEffect`: host calls require a mounted
instance; each forked fiber completes exactly once; an interrupted-only
exit requires a prior interrupt request, while a genuine exit is always
possible (best-effort interruption). -/
def validEv {A E : Type} (s : CbState A E) : CbEv A E → Bool
  | .run => s.mounted
  | .reset => s.mounted
  | .unmount => s.mounted
  | .complete f ex =>
      s.forked.contains f && !(s.completed.contains f) &&
        (match ex with
         | .failure c => !c.isInterruptedOnly || s.interrupts.contains f
         | .success _ => true)

/-- Run a trace of callback-hook events. -/
def runTrace {A E : Type} [DecidableEq A] [DecidableEq E]
    (s : CbState A E) : List (CbEv A E) → CbState A E
  | [] => s
  | ev :: rest => runTrace (cbStep s ev) rest

/-- Check that every event of the trace is possible where it occurs. -/
def validTrace {A E : Type} [DecidableEq A] [DecidableEq E]
    (s : CbState A E) : List (CbEv A E) → Bool
  | [] => true
  | ev :: rest => validEv s ev && validTrace (cbStep s ev) rest

/-- Freshly mounted callback hook: store starts at the `Initial` sentinel. -/
def init (A E : Type) : CbState A E :=
  { storeValue := .initial
    fiberRef := none
    mounted := true
    forked := []
    completed := []
    interrupts := []
    nextFiber := 0
    postUnmountSets := 0 }

/-- The completion branch with the supersession guard of
`useEffectReducer.dispatch` (`src/unnamed/part_013`): before any
projection, the observer compares the completing fiber against the
recorded one and returns when a newer fiber has replaced it.  The other
branches are exactly those of `cbStep`; this variant exists to contrast
the guarded reducer observer with the unguarded callback observer. -/
def cbStepGuarded {A E : Type} [DecidableEq A] [DecidableEq E]
    (s : CbState A E) : CbEv A E → CbState A E
  | .complete f ex =>
      if s.fiberRef = some f then
        let s1 := { s with completed := s.completed ++ [f], fiberRef := none }
        match ex with
        | .success a => cbSet (.success a) s1
        | .failure c =>
            if c.isInterruptedOnly then s1
            else
              match c.failureOption with
              | some e => cbSet (.failure e) s1
              | none => s1
      else { s with completed := s.completed ++ [f] }
  | ev => cbStep s ev

/-- Run a trace under the guarded step. -/
def runTraceGuarded {A E : Type} [DecidableEq A] [DecidableEq E]
    (s : CbState A E) : List (CbEv A E) → CbState A E
  | [] => s
  | ev :: rest => runTraceGuarded (cbStepGuarded s ev) rest

end EffectReact.Callback

namespace EffectReact.Scope

/-!
Model of the scope composition in `EffectProvider.tsx`.

`effectiveLayer` extracts the parent runtime's already-built `Context`
(live service instances) with `runtime.runSync(Effect.context())`, wraps it
with `Layer.succeedContext`, and merges the child's own layer on the right:
`Layer.merge(parentInstancesLayer, currentLayer)`, right side winning on
overlapping tags.  Per §6 of the spec the DI collaborator provides exactly
(a) building a live instance set from a descriptor and (b) right-biased
merge; the model renders a context as an association list from tag ids to
instance reference ids, building assigns consecutive fresh reference ids
from a base counter, and merge puts the child's entries in front so they
shadow the parent's. -/

/-- A built `Context`: tag id to live instance reference id; earlier
entries shadow later ones. -/
abbrev Ctx : Type := List (Nat × Nat)

/-- Resolve a tag in a context. -/
def lookupCtx : Ctx → Nat → Option Nat
  | [], _ => none
  | (t, r) :: rest, tag => if t = tag then some r else lookupCtx rest tag

/-- Reference ids of all instances present in a context. -/
def ctxRefs (c : Ctx) : List Nat := c.map (fun e => e.2)

/-- Right-biased merge: the child's entries shadow the parent's. -/
def mergeCtx (parent child : Ctx) : Ctx := child ++ parent

/-- Build the live instances a descriptor declares: one fresh reference id
per declared tag, consecutive from `base`. -/
def buildLayer : List Nat → Nat → Ctx
  | [], _ => []
  | t :: ts, base => (t, base) :: buildLayer ts (base + 1)

/-- `effectiveLayer` from `EffectProvider.tsx`: with no parent the child
layer builds alone; with a parent, the parent's live instances are merged
with the child's freshly built ones, child side winning. -/
def effectiveLayer (parent : Option Ctx) (tags : List Nat) (base : Nat) : Ctx :=
  match parent with
  | none => buildLayer tags base
  | some p => mergeCtx p (buildLayer tags base)

end EffectReact.Scope

namespace EffectReact.Provider

open EffectReact.Scope

/-!
Model of one `EffectProvider` component instance (`EffectProvider.tsx`).

`effectiveLayer` and the runtime are `useMemo` values keyed on
`[parentRuntime, layer]` (reference identity).  A render with an unchanged
key returns the cached runtime and its built instance set; a render with a
changed key (new layer reference, even structurally identical) calls
`ManagedRuntime.make` on a freshly computed `effectiveLayer`, rebuilding
the instances the descriptor declares while the parent instances are
carried over from the parent runtime's live context by reference.
-/

/-- A layer descriptor value: its reference identity and the tags it
declares (its structure). -/
structure LayerRef where
  ref : Nat
  tags : List Nat
deriving DecidableEq, Repr

/-- Memo state of one provider instance: the memo key (parent runtime id,
layer reference), the built instance set and runtime identity, plus the
model's counters for fresh instance and runtime ids. -/
structure ProvMemo where
  key : Option (Option Nat × Nat)
  ctx : Ctx
  runtimeId : Nat
  fresh : Nat
  nextRuntimeId : Nat
deriving DecidableEq, Repr

/-- One render of the provider with the given parent runtime (id and live
context) and layer prop: reuse the memo when the key is unchanged,
otherwise rebuild `effectiveLayer` and a new runtime. -/
def renderProvider (parent : Option (Nat × Ctx)) (layer : LayerRef)
    (m : ProvMemo) : ProvMemo :=
  if m.key = some (parent.map Prod.fst, layer.ref) then m
  else
    { key := some (parent.map Prod.fst, layer.ref)
      ctx := effectiveLayer (parent.map Prod.snd) layer.tags m.fresh
      runtimeId := m.nextRuntimeId
      fresh := m.fresh + layer.tags.length
      nextRuntimeId := m.nextRuntimeId + 1 }

/-- Provider instance about to mount for the first time. -/
def provInit (fresh : Nat) : ProvMemo :=
  { key := none, ctx := [], runtimeId := 0, fresh := fresh, nextRuntimeId := 1 }

/-!
Disposal lifecycle of one provider instance, for the deferred-disposal
claim.  The component body assigns `activeRuntimeRef.current = runtime` on
every render.  Two `useEffect`s follow: the first (keyed on `[runtime]`)
returns a cleanup that calls
`queueMicrotask(() => { if (activeRuntimeRef.current !== currentRuntime)
currentRuntime.dispose() })`; the second (keyed `[]`) returns a cleanup
that sets `activeRuntimeRef.current = null`.  React StrictMode mounts with
render, render, both setups, then replays both cleanups and both setups
once, all inside one synchronous phase; queued microtasks run after that
phase.  Renders are not replayed by the effect cycle, and the layer and
parent are unchanged throughout, so the memoized runtime is the same object
at every point of the trace. -/

/-- Lifecycle state: the `activeRuntimeRef` cell, the memoized runtime id,
the queued microtask checks (each captured its runtime), and the runtimes
disposed so far. -/
structure StrictState where
  activeRuntimeRef : Option Nat
  runtime : Nat
  queued : List Nat
  disposed : List Nat
deriving DecidableEq, Repr

/-- Lifecycle events of the provider instance. -/
inductive StrictEv where
  | render : StrictEv
  | setupRuntimeEffect : StrictEv
  | setupUnmountEffect : StrictEv
  | cleanupRuntimeEffect : StrictEv
  | cleanupUnmountEffect : StrictEv
  | flushMicrotasks : StrictEv
deriving DecidableEq, Repr

/-- One lifecycle step, translated from `EffectProvider.tsx`: render
assigns the ref; the runtime effect's cleanup queues the deferred check
over its captured runtime; the unmount effect's cleanup nulls the ref; a
microtask flush disposes every queued runtime whose check fails against
the ref as it is at flush time. -/
def strictStep (s : StrictState) : StrictEv → StrictState
  | .render => { s with activeRuntimeRef := some s.runtime }
  | .setupRuntimeEffect => s
  | .setupUnmountEffect => s
  | .cleanupRuntimeEffect => { s with queued := s.queued ++ [s.runtime] }
  | .cleanupUnmountEffect => { s with activeRuntimeRef := none }
  | .flushMicrotasks =>
      { s with
          queued := []
          disposed := s.disposed ++
            s.queued.filter (fun r => decide (s.activeRuntimeRef ≠ some r)) }

/-- Run a lifecycle trace. -/
def runStrict (s : StrictState) : List StrictEv → StrictState
  | [] => s
  | ev :: rest => runStrict (strictStep s ev) rest

/-- The StrictMode double-attach probe: mount, simulated unmount (both
cleanups), immediate re-attach (both setups), then the microtask boundary. -/
def strictModeMountTrace : List StrictEv :=
  [.render, .render, .setupRuntimeEffect, .setupUnmountEffect,
   .cleanupRuntimeEffect, .cleanupUnmountEffect,
   .setupRuntimeEffect, .setupUnmountEffect, .flushMicrotasks]

/-- Lifecycle state at first mount: runtime 0 memoized, nothing queued. -/
def strictInit : StrictState :=
  { activeRuntimeRef := none, runtime := 0, queued := [], disposed := [] }

end EffectReact.Provider

namespace EffectReact.SyncHooks

/-!
Model of the synchronous fast-path hooks: `useEffectState` (sync variant,
`src/unnamed/part_009`) initializes with
`React.useState(() => runtime.runSync(initialEffect))`, and `useEffectMemo`
(same file as `useAtomSet.ts`) computes
`React.useMemo(() => runtime.runSync(factory()), [runtime, ...deps])`.
`runSync` returns the value of a synchronously succeeding computation,
throws a `FiberFailure` when the computation fails synchronously, and
throws when the computation suspends.  A throw from the `useState`
initializer or the `useMemo` body propagates out of the component's render.
-/

/-- A computation classified ahead of execution: synchronously succeeds,
synchronously fails, or suspends. -/
inductive SyncComp (A E : Type) where
  | succeedComp (a : A) : SyncComp A E
  | failComp (e : E) : SyncComp A E
  | asyncComp : SyncComp A E
deriving DecidableEq, Repr

/-- The exceptions `runSync` can throw: the fiber's typed failure, or the
async-boundary error for a suspending computation. -/
inductive RunSyncFailure (E : Type) where
  | fiberFailure (e : E) : RunSyncFailure E
  | asyncFiberException : RunSyncFailure E
deriving DecidableEq, Repr

/-- `runtime.runSync`: value on synchronous success, throw otherwise. -/
def runSync {A E : Type} : SyncComp A E → Except (RunSyncFailure E) A
  | .succeedComp a => .ok a
  | .failComp e => .error (.fiberFailure e)
  | .asyncComp => .error .asyncFiberException

/-- The `useState` initializer of the sync `useEffectState`: the outcome of
the first render is the computed value, or the render throws. -/
def useEffectStateInit {A E : Type} (c : SyncComp A E) : Except (RunSyncFailure E) A :=
  runSync c

/-- The memoized computation of `useEffectMemo`. -/
def useEffectMemoCompute {A E : Type} (c : SyncComp A E) : Except (RunSyncFailure E) A :=
  runSync c

end EffectReact.SyncHooks

namespace EffectReact.Hooks

open EffectReact EffectReact.SyncHooks EffectReact.Callback

/-!
Render-time runtime resolution.  Every public hook that needs a runtime
begins its render with `useEffectRuntime()`
(`src/hooks/useEffectRuntime.ts`), which reads the provider context and
throws an `Error` when it is `null`.  Each render model below performs that
resolution first and otherwise returns the hook's first-render result; an
`Except.error` is a synchronous throw during render. -/

/-- Exceptions a hook render can raise. -/
inductive RenderError (E : Type) where
  | noProvider (msg : String) : RenderError E
  | runSyncThrow (f : RunSyncFailure E) : RenderError E
deriving DecidableEq, Repr

/-- The message of the error `useEffectRuntime` throws without a provider. -/
def noProviderMessage : String :=
  "useEffectRuntime: No EffectProvider found in component tree. Wrap your component with <EffectProvider layer=\x7b...\x7d>."

/-- `useEffectRuntime`: the context value is the nearest provider's runtime
(modelled by its id) or `none`; throw on `none`. -/
def useEffectRuntime (ctx : Option Nat) : Except (RenderError Nat) Nat :=
  match ctx with
  | none => .error (.noProvider noProviderMessage)
  | some rt => .ok rt

/-- First render of `useRunEffect`: resolve the runtime, then read the
freshly created store, which holds `Loading`. -/
def useRunEffectRender (ctx : Option Nat) : Except (RenderError Nat) (EffectResult Nat Nat) :=
  match useEffectRuntime ctx with
  | .error err => .error err
  | .ok _ => .ok .loading

/-- First render of `useService`: resolve the runtime, then read the
freshly created store, which holds `Loading`. -/
def useServiceRender (ctx : Option Nat) : Except (RenderError Nat) (EffectResult Nat (Cause Nat)) :=
  match useEffectRuntime ctx with
  | .error err => .error err
  | .ok _ => .ok .loading

/-- First render of the sync `useEffectState`: resolve the runtime, then
run the initializer; a `runSync` throw also propagates out of the render. -/
def useEffectStateRender (ctx : Option Nat) (c : SyncComp Nat Nat) : Except (RenderError Nat) Nat :=
  match useEffectRuntime ctx with
  | .error err => .error err
  | .ok _ =>
      match runSync c with
      | .ok a => .ok a
      | .error f => .error (.runSyncThrow f)

/-- First render of `useEffectCallback`: resolve the runtime, then read the
store, which holds `Initial`, reported as `Loading` by the hook. -/
def useEffectCallbackRender (ctx : Option Nat) : Except (RenderError Nat) (EffectResult Nat Nat) :=
  match useEffectRuntime ctx with
  | .error err => .error err
  | .ok _ => .ok .loading

/-- First render of `useStream`: resolve the runtime, then read the freshly
created store, which holds `Loading`. -/
def useStreamRender (ctx : Option Nat) : Except (RenderError Nat) (EffectResult Nat Nat) :=
  match useEffectRuntime ctx with
  | .error err => .error err
  | .ok _ => .ok .loading

/-- First render of `useSubscriptionRef`: resolve the runtime, then read
the freshly created store, which holds `Loading`. -/
def useSubscriptionRefRender (ctx : Option Nat) : Except (RenderError Nat) (EffectResult Nat Nat) :=
  match useEffectRuntime ctx with
  | .error err => .error err
  | .ok _ => .ok .loading

end EffectReact.Hooks

namespace EffectReact.Claims

open EffectReact EffectReact.Reactive EffectReact.RunEffect EffectReact.Callback
open EffectReact.Service EffectReact.Scope EffectReact.Provider
open EffectReact.SyncHooks EffectReact.Hooks

/-- Two `run` invocations on one `useEffectCallback` slot before either
completes; the newer fiber 1 settles first with `Success 20`, then the
superseded fiber 0 — whose interrupt request did not take effect before it
settled, which best-effort interruption permits — delivers `Success 10`. -/
def c1Trace : List (CbEv Nat Nat) :=
  [.run, .run, .complete 1 (.success 20), .complete 0 (.success 10)]

/-- C4 failing trace for `useRunEffect`: the component unmounts while fiber
0 is in flight; the cleanup issues the interrupt request, but the fiber
settles genuinely afterwards and its observer fires. -/
def c4Trace : List (REv Nat Nat) :=
  [.effectSetup, .unmount, .complete 0 (.success 42)]

/-- C4 failing trace for `useEffectCallback`: same shape via `run`. -/
def c4CbTrace : List (CbEv Nat Nat) :=
  [.run, .unmount, .complete 0 (.success 42)]

/-- C3 counterexample trace: the fiber of a mounted `useRunEffect` settles
with a defect-only cause (`die`) — for example the programmer error of
resolving a service identity absent from the scope inside the effect. -/
def c3Trace : List (REv Nat Nat) :=
  [.effectSetup, .complete 0 (.failure .die)]

/-- C8 counterexample fixtures: a parent runtime (id 1) exposing tag 0 as
instance 100; the child declares tag 1, first with layer reference 1, then
re-rendered with the structurally identical but referentially new layer
reference 2. -/
def c8Parent : Option (Nat × Ctx) := some (1, [(0, 100)])

/-- First layer value passed to the child provider. -/
def c8Layer1 : LayerRef := { ref := 1, tags := [1] }

/-- Structurally identical layer with a new reference identity. -/
def c8Layer2 : LayerRef := { ref := 2, tags := [1] }

/-- Child provider memo after its first render with `c8Layer1`. -/
def c8Memo1 : ProvMemo := renderProvider c8Parent c8Layer1 (provInit 200)

end EffectReact.Claims

namespace EffectReact

/-- An interrupted-only cause carries no typed failure. -/
theorem Cause.failureOption_eq_none_of_isInterruptedOnly {E : Type} (c : Cause E)
    (h : c.isInterruptedOnly = true) : c.failureOption = none := by
  induction c with
  | fail e => simp [Cause.isInterruptedOnly] at h
  | die => simp [Cause.isInterruptedOnly] at h
  | interrupt => rfl
  | seqComp c1 c2 ih1 ih2 =>
      simp only [Cause.isInterruptedOnly, Bool.and_eq_true] at h
      simp [Cause.failureOption, ih1 h.1, ih2 h.2]

end EffectReact

namespace EffectReact.Reactive

/-- Listener callbacks never touch the stored value. -/
theorem applyActions_value (acts : List LAction) (s : Store) :
    (applyActions acts s).value = s.value := by
  induction acts generalizing s with
  | nil => rfl
  | cons a rest ih => cases a <;> simpa [applyActions] using ih _

/-- The notification walk never touches the stored value. -/
theorem notifyAll_value (env : Env) (fuel i : Nat) (s : Store) :
    (notifyAll env fuel i s).value = s.value := by
  induction fuel generalizing i s with
  | zero => rfl
  | succ fuel ih =>
      unfold notifyAll
      match h : s.entries[i]? with
      | none => simp [h]
      | some e =>
          simp only [h]
          rw [ih]
          by_cases hp : e.2 = true <;>
            simp [hp, runListener, applyActions_value]

/-- When no callback mutates the listener set, the walk appends to the log
exactly the present listeners in entry (registration) order and leaves the
entry list unchanged. -/
theorem notifyAll_trivial (env : Env) (htriv : ∀ id, env id = []) (fuel : Nat) :
    ∀ (i : Nat) (s : Store), s.entries.length ≤ fuel + i →
    (notifyAll env fuel i s).entries = s.entries ∧
    (notifyAll env fuel i s).log = s.log ++ presentIdsFrom s.entries i := by
  induction fuel with
  | zero =>
      intro i s hlen
      have hdrop : s.entries.drop i = [] := List.drop_eq_nil_of_le (by simpa using hlen)
      simp [notifyAll, presentIdsFrom, hdrop]
  | succ fuel ih =>
      intro i s hlen
      match h : s.entries[i]? with
      | none =>
          have hge : s.entries.length ≤ i := by
            by_contra hlt
            push_neg at hlt
            rw [List.getElem?_eq_getElem hlt] at h
            cases h
          have hdrop : s.entries.drop i = [] := List.drop_eq_nil_of_le hge
          simp [notifyAll, h, presentIdsFrom, hdrop]
      | some e =>
          have hlt : i < s.entries.length := by
            by_contra hge
            push_neg at hge
            rw [List.getElem?_eq_none hge] at h
            cases h
          have he : s.entries[i] = e := by
            have hg := List.getElem?_eq_getElem hlt
            rw [hg] at h
            exact Option.some.inj h
          have hdrop : s.entries.drop i = e :: s.entries.drop (i + 1) := by
            rw [List.drop_eq_getElem_cons hlt, he]
          by_cases hp : e.2 = true
          case pos =>
              have hrun : runListener env e.1 s = { s with log := s.log ++ [e.1] } := by
                simp [runListener, htriv, applyActions]
              have hstep := ih (i + 1) { s with log := s.log ++ [e.1] } (by simp; omega)
              simp only [notifyAll, h]
              rw [if_pos hp, hrun]
              refine ⟨by simpa using hstep.1, ?_⟩
              rw [hstep.2]
              simp [presentIdsFrom, hdrop, hp]
          case neg =>
              have hstep := ih (i + 1) s (by omega)
              simp only [notifyAll, h]
              rw [if_neg hp]
              refine ⟨hstep.1, ?_⟩
              rw [hstep.2]
              simp [presentIdsFrom, hdrop, hp]

/-- `set` establishes the requested value. -/
theorem storeSet_value (env : Env) (fuel : Nat) (v : Nat) (s : Store) :
    (storeSet env fuel v s).value = v := by
  unfold storeSet
  by_cases h : s.value = v
  case pos => simp [h]
  case neg => simp [h, notifyAll_value]

/-- `set` with the current value returns immediately, changing nothing. -/
theorem storeSet_of_value_eq (env : Env) (fuel : Nat) (v : Nat) (s : Store)
    (h : s.value = v) : storeSet env fuel v s = s := by
  unfold storeSet
  simp [h]

end EffectReact.Reactive

namespace EffectReact.RunEffect

/-- The store value after `rSet v` is `v`. -/
theorem rSet_storeValue {A E : Type} [DecidableEq A] [DecidableEq E]
    (v : EffectResult A E) (s : RState A E) : (rSet v s).storeValue = v := by
  unfold rSet
  by_cases h : s.storeValue = v <;> simp [h]

end EffectReact.RunEffect

namespace EffectReact.Callback

/-- Contrast for the supersession race: under the reducer-style guard of
`cbStepGuarded` the trace of two overlapping runs ends at the LATEST
fiber's outcome — the superseded fiber 0's genuine `Success 10` is
discarded because `fiberRef` no longer records it. -/
theorem guarded_observer_discards_stale :
    (runTraceGuarded (init Nat Nat)
      [.run, .run, .complete 1 (.success 20), .complete 0 (.success 10)]).storeValue
      = CallbackState.success 20 := by
  rfl

end EffectReact.Callback

namespace EffectReact.Scope

/-- Resolution in a merge tries the child first and falls back to the parent. -/
theorem lookupCtx_mergeCtx (p c : Ctx) (t : Nat) :
    lookupCtx (mergeCtx p c) t =
      match lookupCtx c t with
      | some r => some r
      | none => lookupCtx p t := by
  induction c with
  | nil => rfl
  | cons e rest ih =>
      by_cases h : e.1 = t
      case pos => simp [mergeCtx, lookupCtx, h]
      case neg =>
          simp [mergeCtx, lookupCtx, h] at ih ⊢
          exact ih

/-- A tag the descriptor does not declare is absent from the built layer. -/
theorem lookupCtx_buildLayer_not_mem (tags : List Nat) (base t : Nat)
    (h : t ∉ tags) : lookupCtx (buildLayer tags base) t = none := by
  induction tags generalizing base with
  | nil => rfl
  | cons x rest ih =>
      have hx : x ≠ t := fun he => h (he ▸ List.mem_cons_self x rest)
      have hr : t ∉ rest := fun hm => h (List.mem_cons_of_mem x hm)
      simp [buildLayer, lookupCtx, hx, ih _ hr]

/-- A declared tag resolves in the built layer to one of the fresh
reference ids handed out from `base`. -/
theorem lookupCtx_buildLayer_mem (tags : List Nat) (base t : Nat)
    (h : t ∈ tags) :
    ∃ k, k < tags.length ∧ lookupCtx (buildLayer tags base) t = some (base + k) := by
  induction tags generalizing base with
  | nil => cases h
  | cons x rest ih =>
      by_cases hx : x = t
      case pos =>
          exact ⟨0, by simp, by simp [buildLayer, lookupCtx, hx]⟩
      case neg =>
          have hr : t ∈ rest := by
            rcases List.mem_cons.mp h with h1 | h2
            case inl => exact absurd h1.symm hx
            case inr => exact h2
          rcases ih (base + 1) hr with ⟨k, hk, hl⟩
          refine ⟨k + 1, by simpa using Nat.succ_lt_succ hk, ?_⟩
          simpa [buildLayer, lookupCtx, hx, Nat.add_assoc, Nat.add_comm 1 k] using hl

/-- A successful resolution returns the reference of an instance the
context holds. -/
theorem lookupCtx_mem_ctxRefs (c : Ctx) (t r : Nat)
    (h : lookupCtx c t = some r) : r ∈ ctxRefs c := by
  induction c with
  | nil => cases h
  | cons e rest ih =>
      by_cases he : e.1 = t
      case pos =>
          simp [lookupCtx, he] at h
          simp [ctxRefs, h]
      case neg =>
          simp [lookupCtx, he] at h
          simp [ctxRefs]
          exact Or.inr (by simpa [ctxRefs] using ih h)

end EffectReact.Scope

namespace EffectReact.Provider

open EffectReact.Scope

/-- After a render the memo key records the inputs just rendered. -/
theorem renderProvider_key (parent : Option (Nat × Ctx)) (layer : LayerRef)
    (m : ProvMemo) :
    (renderProvider parent layer m).key = some (parent.map Prod.fst, layer.ref) := by
  unfold renderProvider
  by_cases h : m.key = some (parent.map Prod.fst, layer.ref) <;> simp [h]

/-- A render whose memo key matches returns the cached memo unchanged. -/
theorem renderProvider_of_key_eq (parent : Option (Nat × Ctx)) (layer : LayerRef)
    (m : ProvMemo) (h : m.key = some (parent.map Prod.fst, layer.ref)) :
    renderProvider parent layer m = m := by
  unfold renderProvider
  simp [h]

/-- A render whose memo key differs recomputes `effectiveLayer` and makes a
new runtime. -/
theorem renderProvider_of_key_ne (parent : Option (Nat × Ctx)) (layer : LayerRef)
    (m : ProvMemo) (h : m.key ≠ some (parent.map Prod.fst, layer.ref)) :
    renderProvider parent layer m =
      { key := some (parent.map Prod.fst, layer.ref)
        ctx := effectiveLayer (parent.map Prod.snd) layer.tags m.fresh
        runtimeId := m.nextRuntimeId
        fresh := m.fresh + layer.tags.length
        nextRuntimeId := m.nextRuntimeId + 1 } := by
  unfold renderProvider
  simp [h]

/-- Sanity: on a true detach (no re-attach) the deferred disposal runs, as
intended — exactly the same outcome the probe trace produces. -/
theorem runStrict_true_unmount_disposes :
    (runStrict strictInit
      [.render, .setupRuntimeEffect, .setupUnmountEffect,
       .cleanupRuntimeEffect, .cleanupUnmountEffect, .flushMicrotasks]).disposed = [0] := by
  rfl

end EffectReact.Provider

namespace EffectReact.Claims

open EffectReact EffectReact.Reactive EffectReact.RunEffect EffectReact.Callback
open EffectReact.Service EffectReact.Scope EffectReact.Provider
open EffectReact.SyncHooks EffectReact.Hooks

/-- C1: the claim requires the completion handler to verify the completing
Task is still the slot's active one and discard the outcome otherwise, so
the Store never reflects a superseded Task's outcome.  `useEffectReducer`'s
observer performs that check, but `useEffectCallback`'s observer applies
its projection unconditionally (it even clears `fiberRef` first without
comparing): on the valid trace `c1Trace` the slot's Store ends at the
superseded fiber 0's outcome `Success 10`, overwriting the active fiber's
`Success 20` — the interrupt request on fiber 0 was issued but, interruption
being best-effort, did not prevent its genuine completion. -/
theorem C1_callback_overwrites_with_superseded_outcome :
    Callback.validTrace (Callback.init Nat Nat) c1Trace = true ∧
    (Callback.runTrace (Callback.init Nat Nat) c1Trace).storeValue = CallbackState.success 10 ∧
    (Callback.runTrace (Callback.init Nat Nat) c1Trace).interrupts = [0] :=
  ⟨rfl, rfl, rfl⟩

/-- C4: the claim guarantees zero `set` calls on a slot's Store after its
host detaches.  The unmount cleanups of `useRunEffect` and
`useEffectCallback` only issue a best-effort `unsafeInterruptAsFork`; their
observers never compare the completing fiber against any teardown record,
so a fiber that settles genuinely after the unmount (which best-effort
interruption permits) still calls `store.set`: both valid traces end with
one post-unmount value-changing `set` and the Store at `Success 42`. -/
theorem C4_store_set_after_teardown :
    (RunEffect.validTrace (RunEffect.init Nat Nat) c4Trace = true ∧
     (RunEffect.runTrace (RunEffect.init Nat Nat) c4Trace).postUnmountSets = 1 ∧
     (RunEffect.runTrace (RunEffect.init Nat Nat) c4Trace).storeValue = EffectResult.success 42) ∧
    (Callback.validTrace (Callback.init Nat Nat) c4CbTrace = true ∧
     (Callback.runTrace (Callback.init Nat Nat) c4CbTrace).postUnmountSets = 1 ∧
     (Callback.runTrace (Callback.init Nat Nat) c4CbTrace).storeValue = CallbackState.success 42) :=
  ⟨⟨rfl, rfl, rfl⟩, ⟨rfl, rfl, rfl⟩⟩

/-- C5: a completion whose cause is interrupted-only performs no Store
update at all, in `useRunEffect` and in `useEffectCallback`: the store
value is exactly the prior one and no (post-unmount) `set` is counted,
whatever the machine state. -/
theorem C5_interruption_leaves_store_untouched {A E : Type}
    [DecidableEq A] [DecidableEq E]
    (s : RState A E) (t : CbState A E) (f g : Nat) (c d : Cause E)
    (hc : c.isInterruptedOnly = true) (hd : d.isInterruptedOnly = true) :
    ((RunEffect.step s (.complete f (.failure c))).storeValue = s.storeValue ∧
     (RunEffect.step s (.complete f (.failure c))).postUnmountSets = s.postUnmountSets) ∧
    ((Callback.cbStep t (.complete g (.failure d))).storeValue = t.storeValue ∧
     (Callback.cbStep t (.complete g (.failure d))).postUnmountSets = t.postUnmountSets) := by
  constructor
  case left =>
      unfold RunEffect.step RunEffect.observer
      simp [hc]
  case right =>
      unfold Callback.cbStep
      simp [hd]

/-- Witness for C5 at the freshly mounted states and the plain interrupt
cause. -/
theorem C5_interruption_witness :
    (RunEffect.step (RunEffect.init Nat Nat) (.complete 0 (.failure .interrupt))).storeValue
        = (RunEffect.init Nat Nat).storeValue ∧
    (Callback.cbStep (Callback.init Nat Nat) (.complete 0 (.failure .interrupt))).storeValue
        = (Callback.init Nat Nat).storeValue :=
  ⟨(C5_interruption_leaves_store_untouched (RunEffect.init Nat Nat) (Callback.init Nat Nat)
      0 0 .interrupt .interrupt rfl rfl).1.1,
   (C5_interruption_leaves_store_untouched (RunEffect.init Nat Nat) (Callback.init Nat Nat)
      0 0 .interrupt .interrupt rfl rfl).2.1⟩

/-- C3 counterexample: a defect-only cause is a genuine (non-interruption)
failure, yet `useRunEffect`'s observer checks `Cause.failureOption` and
finds no typed failure, so it performs no Store update: after the valid
trace `c3Trace` the Store still holds `Loading` and carries no Failure —
the genuine error was silently swallowed, contradicting the claim. -/
theorem C3_counterexample_defect_swallowed :
    RunEffect.validTrace (RunEffect.init Nat Nat) c3Trace = true ∧
    (RunEffect.runTrace (RunEffect.init Nat Nat) c3Trace).storeValue = EffectResult.loading ∧
    ((RunEffect.runTrace (RunEffect.init Nat Nat) c3Trace).storeValue).isFailure = false :=
  ⟨rfl, rfl, rfl⟩

/-- C3 amended: in `useRunEffect` a settling cause that carries a typed
failure is surfaced as `Failure e` the first time the computation settles,
and `useService` surfaces every non-interruption cause — including the
missing-service defect — as `Failure(cause)`; but a defect-only cause in
`useRunEffect` leaves the Store unchanged (silently dropped). -/
theorem C3_amended_failure_surfacing {A E : Type} [DecidableEq A] [DecidableEq E]
    (s : RState A E) (prior : EffectResult A (Cause E)) (f : Nat) (c : Cause E) (e : E) :
    (c.failureOption = some e →
        (RunEffect.step s (.complete f (.failure c))).storeValue = EffectResult.failure e) ∧
    (c.isInterruptedOnly = false →
        useServiceObserver prior (.failure c) = EffectResult.failure c) ∧
    (c.failureOption = none →
        (RunEffect.step s (.complete f (.failure c))).storeValue = s.storeValue) := by
  refine ⟨?_, ?_, ?_⟩
  case _ =>
      intro hfo
      have hnio : c.isInterruptedOnly = false := by
        cases hio : c.isInterruptedOnly
        case false => rfl
        case true =>
            rw [Cause.failureOption_eq_none_of_isInterruptedOnly c hio] at hfo
            cases hfo
      unfold RunEffect.step RunEffect.observer
      simp [hnio, hfo, RunEffect.rSet_storeValue]
  case _ =>
      intro hnio
      unfold useServiceObserver
      simp [hnio]
  case _ =>
      intro hfo
      unfold RunEffect.step RunEffect.observer
      cases hio : c.isInterruptedOnly <;> simp [hio, hfo]

/-- Witness for C3 amended: a typed failure `fail 7` is surfaced by
`useRunEffect`, and the missing-service defect cause `die` is surfaced by
`useService` while `useRunEffect` drops it. -/
theorem C3_amended_witness :
    (RunEffect.step (RunEffect.init Nat Nat) (.complete 0 (.failure (.fail 7)))).storeValue
        = EffectResult.failure 7 ∧
    useServiceObserver (EffectResult.loading : EffectResult Nat (Cause Nat)) (.failure .die)
        = EffectResult.failure .die ∧
    (RunEffect.step (RunEffect.init Nat Nat) (.complete 0 (.failure .die))).storeValue
        = (RunEffect.init Nat Nat).storeValue :=
  ⟨(C3_amended_failure_surfacing (RunEffect.init Nat Nat) EffectResult.loading 0 (.fail 7) 7).1 rfl,
   (C3_amended_failure_surfacing (RunEffect.init Nat Nat)
      (EffectResult.loading : EffectResult Nat (Cause Nat)) 0 .die 7).2.1 rfl,
   (C3_amended_failure_surfacing (RunEffect.init Nat Nat)
      (EffectResult.loading : EffectResult Nat (Cause Nat)) 0 .die 7).2.2 rfl⟩

/-- C2 counterexample: listener 0, the only registered listener, subscribes
listener 1 from inside its callback during the notification of
`set(1)`.  The source iterates the live `Set`, so the pass invokes listener
1 as well: the invocation log is `[0, 1]` and the entry appended mid-pass
is present.  Under the claimed stable snapshot taken at the start of the
call, the pass would have invoked only listener 0. -/
theorem C2_counterexample_live_set_iteration :
    (storeSet envAddDuringPass 5 1 storeC2).log = [0, 1] ∧
    (storeSet envAddDuringPass 5 1 storeC2).entries = [(0, true), (1, true)] :=
  ⟨rfl, rfl⟩

/-- C2 amended: `set(v)` returns immediately (no notification, no change)
when `v` is reference-equal to the current value, so two consecutive `set`
calls with the same `v` notify at most once — the second call is a no-op;
otherwise it replaces the value and synchronously invokes the registered
listeners in registration order by iterating the LIVE listener set: when no
callback mutates the set the pass invokes exactly the present listeners in
registration order, but there is no snapshot — listeners added during the
pass are invoked in it (see the counterexample). -/
theorem C2_amended_set_semantics (env : Env) (fuel : Nat) (s : Store) (v : Nat) :
    (s.value = v → storeSet env fuel v s = s) ∧
    (storeSet env fuel v (storeSet env fuel v s) = storeSet env fuel v s) ∧
    ((∀ id, env id = []) → s.value ≠ v → s.entries.length ≤ fuel →
      (storeSet env fuel v s).log = s.log ++ presentIdsFrom s.entries 0) := by
  refine ⟨?_, ?_, ?_⟩
  case _ => exact storeSet_of_value_eq env fuel v s
  case _ => exact storeSet_of_value_eq env fuel v _ (storeSet_value env fuel v s)
  case _ =>
      intro htriv hne hlen
      unfold storeSet
      rw [if_neg hne]
      exact (notifyAll_trivial env htriv fuel 0 { s with value := v } (by simpa using hlen)).2

/-- Witness for C2 amended: on a store holding listeners 0 (present), 1
(unsubscribed) and 2 (present) with trivial callbacks, `set(1)` logs
exactly `[0, 2]`, and a `set(0)` at the current value 0 is the identity. -/
theorem C2_amended_witness :
    (storeSet envTrivC2 3 1 storeC2w).log
        = storeC2w.log ++ presentIdsFrom storeC2w.entries 0 ∧
    storeSet envTrivC2 3 0 storeC2w = storeC2w :=
  ⟨(C2_amended_set_semantics envTrivC2 3 storeC2w 1).2.2 (fun _ => rfl) (by decide) (by decide),
   (C2_amended_set_semantics envTrivC2 3 storeC2w 0).1 rfl⟩

/-- C6: in `effectiveLayer`, a service identity not redeclared by the child
resolves in the child scope to the parent's exact instance reference; a
redeclared identity resolves to one of the child's freshly built instances
— different from every parent instance when the fresh ids exceed the
parent's — while the parent scope and any sibling scope that does not
redeclare it still resolve the parent's instance. -/
theorem C6_inheritance_and_override (p : Ctx) (tags sibTags : List Nat)
    (base sibBase t : Nat) :
    (t ∉ tags → lookupCtx (effectiveLayer (some p) tags base) t = lookupCtx p t) ∧
    (t ∈ tags → ∃ k, k < tags.length ∧
        lookupCtx (effectiveLayer (some p) tags base) t = some (base + k)) ∧
    (t ∈ tags → (∀ r ∈ ctxRefs p, r < base) →
        lookupCtx (effectiveLayer (some p) tags base) t ≠ lookupCtx p t) ∧
    (t ∉ sibTags → lookupCtx (effectiveLayer (some p) sibTags sibBase) t = lookupCtx p t) := by
  have hinherit : ∀ (ts : List Nat) (b : Nat), t ∉ ts →
      lookupCtx (effectiveLayer (some p) ts b) t = lookupCtx p t := by
    intro ts b hmem
    unfold effectiveLayer
    rw [lookupCtx_mergeCtx, lookupCtx_buildLayer_not_mem ts b t hmem]
  refine ⟨hinherit tags base, ?_, ?_, hinherit sibTags sibBase⟩
  case _ =>
      intro hmem
      rcases lookupCtx_buildLayer_mem tags base t hmem with ⟨k, hk, hl⟩
      exact ⟨k, hk, by unfold effectiveLayer; rw [lookupCtx_mergeCtx, hl]⟩
  case _ =>
      intro hmem hrefs
      rcases lookupCtx_buildLayer_mem tags base t hmem with ⟨k, hk, hl⟩
      have hchild : lookupCtx (effectiveLayer (some p) tags base) t = some (base + k) := by
        unfold effectiveLayer
        rw [lookupCtx_mergeCtx, hl]
      rw [hchild]
      cases hp : lookupCtx p t
      case none => simp
      case some r =>
          have hr : r < base := hrefs r (lookupCtx_mem_ctxRefs p t r hp)
          intro hcontra
          have : base + k = r := Option.some.inj hcontra
          omega

/-- Witness for C6 on the parent context `[(0, 100), (5, 101)]`, a child
redeclaring tag 5 with fresh base 200, and a sibling declaring only tag 2:
tag 0 is inherited by reference, tag 5 is overridden in the child but not
in the sibling. -/
theorem C6_inheritance_witness :
    lookupCtx (effectiveLayer (some [(0, 100), (5, 101)]) [5] 200) 0
        = lookupCtx [(0, 100), (5, 101)] 0 ∧
    lookupCtx (effectiveLayer (some [(0, 100), (5, 101)]) [5] 200) 5
        ≠ lookupCtx [(0, 100), (5, 101)] 5 ∧
    lookupCtx (effectiveLayer (some [(0, 100), (5, 101)]) [2] 300) 5
        = lookupCtx [(0, 100), (5, 101)] 5 :=
  ⟨(C6_inheritance_and_override [(0, 100), (5, 101)] [5] [2] 200 300 0).1 (by decide),
   (C6_inheritance_and_override [(0, 100), (5, 101)] [5] [2] 200 300 5).2.2.1 (by decide) (by decide),
   (C6_inheritance_and_override [(0, 100), (5, 101)] [5] [2] 200 300 5).2.2.2 (by decide)⟩

/-- C7: the StrictMode double-attach probe on one provider instance with a
stable layer.  The memoized runtime is the same object throughout (the
instance set survives, `runtime = 0`), but the deferred disposal is NOT
skipped: the unmount-effect cleanup nulled `activeRuntimeRef` during the
simulated detach, the effect replay does not re-run the render that would
restore it, so at the microtask boundary the supersession check reads
`null ≠ runtime` and disposes the runtime the remounted tree is using —
contradicting the claim (and the code's own comments) that disposal is
skipped when an indistinguishable replacement is active. -/
theorem C7_strictmode_disposal_not_skipped :
    (runStrict strictInit strictModeMountTrace).runtime = 0 ∧
    (runStrict strictInit strictModeMountTrace).disposed = [0] ∧
    (runStrict strictInit strictModeMountTrace).activeRuntimeRef = none :=
  ⟨rfl, rfl, rfl⟩

/-- C8 counterexample: re-rendering the child provider with the
referentially new `c8Layer2` forces a rebuild (a new runtime identity), yet
the merged instance for the parent-declared tag 0 still resolves to the
parent's instance 100 — the same reference as before the churn, so not
every merged instance is freshly identified. -/
theorem C8_counterexample_parent_instance_survives_churn :
    (renderProvider c8Parent c8Layer2 c8Memo1).runtimeId ≠ c8Memo1.runtimeId ∧
    lookupCtx (renderProvider c8Parent c8Layer2 c8Memo1).ctx 0 = some 100 ∧
    lookupCtx c8Memo1.ctx 0 = some 100 :=
  ⟨by decide, rfl, rfl⟩

/-- C8 amended: re-rendering with the same descriptor reference returns the
cached scope unchanged (every instance identity preserved); re-rendering
with a referentially new descriptor — even structurally identical —
deterministically rebuilds, producing a new runtime whose descriptor-declared
instances are freshly identified, while instances inherited from the parent
keep their exact references. -/
theorem C8_amended_descriptor_churn (parent : Option (Nat × Ctx))
    (l1 l2 : LayerRef) (m : ProvMemo) (t pid : Nat) (p : Ctx) :
    (renderProvider parent l1 (renderProvider parent l1 m) = renderProvider parent l1 m) ∧
    (m.key = some (parent.map Prod.fst, l1.ref) → l2.ref ≠ l1.ref →
      (renderProvider parent l2 m).runtimeId = m.nextRuntimeId ∧
      (t ∈ l2.tags → ∃ k, k < l2.tags.length ∧
          lookupCtx (renderProvider parent l2 m).ctx t = some (m.fresh + k)) ∧
      (parent = some (pid, p) → t ∉ l2.tags →
          lookupCtx (renderProvider parent l2 m).ctx t = lookupCtx p t)) := by
  constructor
  case left =>
      exact renderProvider_of_key_eq parent l1 _ (renderProvider_key parent l1 m)
  case right =>
      intro hkey hne
      have hnk : m.key ≠ some (parent.map Prod.fst, l2.ref) := by
        rw [hkey]
        intro hc
        exact hne (congrArg Prod.snd (Option.some.inj hc)).symm
      rw [renderProvider_of_key_ne parent l2 m hnk]
      refine ⟨rfl, ?_, ?_⟩
      case _ =>
          intro hmem
          cases parent
          case none =>
              simpa using lookupCtx_buildLayer_mem l2.tags m.fresh t hmem
          case some pr =>
              rcases lookupCtx_buildLayer_mem l2.tags m.fresh t hmem with ⟨k, hk, hl⟩
              refine ⟨k, hk, ?_⟩
              show lookupCtx (effectiveLayer (some pr.2) l2.tags m.fresh) t = some (m.fresh + k)
              unfold effectiveLayer
              rw [lookupCtx_mergeCtx, hl]
      case _ =>
          intro hpar hmem
          subst hpar
          show lookupCtx (effectiveLayer (some p) l2.tags m.fresh) t = lookupCtx p t
          unfold effectiveLayer
          rw [lookupCtx_mergeCtx, lookupCtx_buildLayer_not_mem l2.tags m.fresh t hmem]

/-- Witness for C8 amended on the churn fixtures: stability under the same
reference, rebuild with a fresh descriptor instance for tag 1, and the
parent's tag 0 carried through by reference. -/
theorem C8_amended_witness :
    renderProvider c8Parent c8Layer1 (renderProvider c8Parent c8Layer1 c8Memo1)
        = renderProvider c8Parent c8Layer1 c8Memo1 ∧
    (renderProvider c8Parent c8Layer2 c8Memo1).runtimeId = c8Memo1.nextRuntimeId ∧
    lookupCtx (renderProvider c8Parent c8Layer2 c8Memo1).ctx 0 = lookupCtx [(0, 100)] 0 :=
  ⟨(C8_amended_descriptor_churn c8Parent c8Layer1 c8Layer2 c8Memo1 0 1 [(0, 100)]).1,
   ((C8_amended_descriptor_churn c8Parent c8Layer1 c8Layer2 c8Memo1 0 1 [(0, 100)]).2
      (by decide) (by decide)).1,
   (((C8_amended_descriptor_churn c8Parent c8Layer1 c8Layer2 c8Memo1 0 1 [(0, 100)]).2
      (by decide) (by decide)).2.2 rfl (by decide))⟩

/-- C9 counterexample: a synchronously failing computation given to the
sync `useEffectState` (or `useEffectMemo`) does not produce a `Failure`
projection — `runSync` throws the fiber failure out of the `useState`
initializer / `useMemo` body, so the render itself raises. -/
theorem C9_counterexample_sync_failure_throws :
    useEffectStateInit (SyncComp.failComp (A := Nat) (7 : Nat))
        = Except.error (RunSyncFailure.fiberFailure 7) ∧
    useEffectMemoCompute (SyncComp.failComp (A := Nat) (7 : Nat))
        = Except.error (RunSyncFailure.fiberFailure 7) :=
  ⟨rfl, rfl⟩

/-- C9 amended: a computation known ahead of execution to succeed without
suspending yields its terminal value directly in the first render — there
is no `Loading` at all in the sync hooks' return type, so instantaneous
work never shows an observable Loading state; a synchronously failing
computation, however, throws `FiberFailure` out of the render instead of
producing a `Failure` projection. -/
theorem C9_amended_sync_fast_path {A E : Type} (a : A) (e : E) :
    useEffectStateInit (SyncComp.succeedComp (E := E) a) = Except.ok a ∧
    useEffectMemoCompute (SyncComp.succeedComp (E := E) a) = Except.ok a ∧
    useEffectStateInit (SyncComp.failComp (A := A) e)
        = Except.error (RunSyncFailure.fiberFailure e) ∧
    useEffectMemoCompute (SyncComp.failComp (A := A) e)
        = Except.error (RunSyncFailure.fiberFailure e) :=
  ⟨rfl, rfl, rfl, rfl⟩

/-- C10: every public hook that needs a runtime resolves it with
`useEffectRuntime` as its first render step; outside any provider the
context is `none` and the render throws the no-provider `Error`
synchronously — none of the six hooks returns a Loading or Failure result. -/
theorem C10_hooks_throw_without_provider :
    useRunEffectRender none = Except.error (.noProvider noProviderMessage) ∧
    useServiceRender none = Except.error (.noProvider noProviderMessage) ∧
    useEffectStateRender none (SyncComp.succeedComp 0)
        = Except.error (.noProvider noProviderMessage) ∧
    useEffectCallbackRender none = Except.error (.noProvider noProviderMessage) ∧
    useStreamRender none = Except.error (.noProvider noProviderMessage) ∧
    useSubscriptionRefRender none = Except.error (.noProvider noProviderMessage) :=
  ⟨rfl, rfl, rfl, rfl, rfl, rfl⟩

end EffectReact.Claims
